/-
Verification of the ingestion-and-dispatch pipeline of this repository
against its natural-language specification.

Modelling conventions:
* Python `time.time()` values and Python floats are modelled as exact
  rationals (ℚ); the properties at stake are order/arithmetic relations,
  not floating-point rounding.
* Each component's per-key dictionaries are modelled at the granularity
  of a single key, since every operation touches exactly one key; a dict
  entry that may be absent is an `Option`.
* `async` methods hold the relevant lock for the whole critical section
  in the source, so each critical section is one atomic state transition.
* Python truthiness of optional numeric limits (`if rpm_limit:`): both
  `None` and `0` are falsy, so an absent limit is modelled as `0`.
-/
import Mathlib

namespace RateLimiter

/-- `request_counters[model]`: `{count, window_start}`
(services/rate_limiter.py). -/
structure RpmCounter where
  count : Nat
  windowStart : ℚ
  deriving Repr, DecidableEq

/-- `token_buckets[model]`: `{tokens, last_refill}`. -/
structure TokenBucket where
  tokens : ℚ
  lastRefill : ℚ
  deriving Repr, DecidableEq

/-- `daily_token_counters[model]`: `{tokens, date}`; the date is a day
marker (e.g. an epoch day number). -/
structure TpdCounter where
  tokens : ℚ
  date : Int
  deriving Repr, DecidableEq

/-- The rate limiter's state for one model key: the three per-model dict
entries, each possibly absent. -/
structure RLState where
  requestCounter : Option RpmCounter
  tokenBucket : Option TokenBucket
  dailyTokenCounter : Option TpdCounter
  deriving Repr, DecidableEq

/-- Fresh `RateLimiter()`: all three dicts empty. -/
def RLState.init : RLState := ⟨none, none, none⟩

/-- `RateLimiter._check_rpm`: create the counter on first touch, reset
the 60 s window when elapsed, then deny iff `count >= rpm_limit`.
All mutations made on the way are kept (the dict entry is written). -/
def checkRpm (s : RLState) (now : ℚ) (rpmLimit : Nat) : RLState × Bool :=
  let c0 := s.requestCounter.getD { count := 0, windowStart := now }
  let c1 := if 60 ≤ now - c0.windowStart then
      { count := 0, windowStart := now } else c0
  let s1 := { s with requestCounter := some c1 }
  if rpmLimit ≤ c1.count then (s1, false) else (s1, true)

/-- The lazy refill step of `RateLimiter._check_tpm`: when time has
elapsed, add `tpm_limit/60` tokens per second, capped at capacity, and
advance `last_refill`. -/
def refillBucket (b : TokenBucket) (now tpmLimit : ℚ) : TokenBucket :=
  if 0 < now - b.lastRefill then
    { tokens := min tpmLimit (b.tokens + tpmLimit / 60 * (now - b.lastRefill)),
      lastRefill := now }
  else b

/-- `RateLimiter._check_tpm`: create a full bucket on first touch,
lazily refill, then deny iff the bucket holds fewer tokens than the
request cost.  The refill mutation is kept even on denial. -/
def checkTpm (s : RLState) (now cost tpmLimit : ℚ) : RLState × Bool :=
  let b0 := s.tokenBucket.getD { tokens := tpmLimit, lastRefill := now }
  let b1 := refillBucket b0 now tpmLimit
  let s1 := { s with tokenBucket := some b1 }
  if b1.tokens < cost then (s1, false) else (s1, true)

/-- `RateLimiter._check_tpd`: create the daily counter on first touch,
reset it when the day changed, then deny iff `tokens + cost > tpd_limit`. -/
def checkTpd (s : RLState) (today : Int) (cost tpdLimit : ℚ) : RLState × Bool :=
  let c0 := s.dailyTokenCounter.getD { tokens := 0, date := today }
  let c1 := if c0.date ≠ today then { tokens := 0, date := today } else c0
  let s1 := { s with dailyTokenCounter := some c1 }
  if tpdLimit < c1.tokens + cost then (s1, false) else (s1, true)

/-- `RateLimiter._record_request`: increment the RPM count, add the cost
to today's daily counter, and deduct the cost from the TPM bucket —
each only when the corresponding entry exists. -/
def recordRequest (s : RLState) (today : Int) (cost : ℚ) : RLState :=
  let s1 := match s.requestCounter with
    | some c => { s with requestCounter := some { c with count := c.count + 1 } }
    | none => s
  let s2 := match s1.dailyTokenCounter with
    | some c =>
        if c.date = today then
          { s1 with dailyTokenCounter := some { c with tokens := c.tokens + cost } }
        else s1
    | none => s1
  match s2.tokenBucket with
    | some b => { s2 with tokenBucket := some { b with tokens := b.tokens - cost } }
    | none => s2

/-- `RateLimiter.can_request`: under the lock, run the RPM, TPM and TPD
checks in that order, returning at the first denial (keeping whatever
the checks already wrote), and record the request only when all pass. -/
def canRequest (s : RLState) (now : ℚ) (today : Int) (cost : ℚ)
    (tpmLimit : ℚ) (rpmLimit : Nat) (tpdLimit : ℚ) : RLState × Bool :=
  let step1 := if rpmLimit ≠ 0 then checkRpm s now rpmLimit else (s, true)
  if step1.2 = false then (step1.1, false) else
  let step2 := if tpmLimit ≠ 0 then checkTpm step1.1 now cost tpmLimit
    else (step1.1, true)
  if step2.2 = false then (step2.1, false) else
  let step3 := if tpdLimit ≠ 0 then checkTpd step2.1 today cost tpdLimit
    else (step2.1, true)
  if step3.2 = false then (step3.1, false) else
  (recordRequest step3.1 today cost, true)

/-- Run a sequence of timed requests `(time, cost)` against one model
key with only a TPM limit configured, returning the final state and the
total cost of the admitted requests. -/
def runTpmTrace (s : RLState) (tpmLimit : ℚ) : List (ℚ × ℚ) → RLState × ℚ
  | [] => (s, 0)
  | (t, c) :: rest =>
    let step := canRequest s t 0 c tpmLimit 0 0
    let res := runTpmTrace step.1 tpmLimit rest
    (res.1, (if step.2 then c else 0) + res.2)

/-- Potential of an optional bucket: an upper bound, up to linear drift
in `last_refill`, on the tokens the bucket can still provide. -/
def bucketPotential (ob : Option TokenBucket) (tpmLimit tmin : ℚ) : ℚ :=
  match ob with
  | some b => b.tokens - tpmLimit / 60 * b.lastRefill
  | none => tpmLimit - tpmLimit / 60 * tmin

/-- The RPM count currently stored for the model key (0 when absent). -/
def rpmCountOf (s : RLState) : Nat :=
  (s.requestCounter.map RpmCounter.count).getD 0

/-- The TPD daily token total currently stored for the model key
(0 when absent). -/
def dailyTokensOf (s : RLState) : ℚ :=
  (s.dailyTokenCounter.map TpdCounter.tokens).getD 0

end RateLimiter

namespace RuleCache

/-- One rule record (services/ai_rule_engine.py): only the fields the
caching layer inspects are modelled; `body` stands for the remaining
payload of the dict.  `r.get('is_active', True)` and
`x.get('priority', 0)` read these fields with the given defaults. -/
structure Rule where
  isActive : Bool := true
  priority : Int := 0
  body : Nat := 0
  deriving Repr, DecidableEq

/-- A cache slot: `{'data': [...], 'timestamp': float}`. -/
structure CacheEntry where
  data : List Rule
  timestamp : ℚ
  deriving Repr, DecidableEq

/-- `CACHE_TTL = 30` seconds. -/
def CACHE_TTL : ℚ := 30

/-- `AIRuleEngine._is_cache_valid` for the one modelled task id: an
absent entry is invalid; a present entry is valid iff its age
`time.time() - timestamp` is strictly below the TTL.  (Entries are
always created with a timestamp, so the `'timestamp' not in entry`
branch cannot trigger.) -/
def isCacheValid (c : Option CacheEntry) (now : ℚ) : Bool :=
  match c with
  | none => false
  | some e => now - e.timestamp < CACHE_TTL

/-- `AIRuleEngine._get_cached_data`: the stored payload if the entry is
valid, else `None`. -/
def getCachedData (c : Option CacheEntry) (now : ℚ) : Option (List Rule) :=
  if isCacheValid c now then some ((c.map CacheEntry.data).getD []) else none

/-- `AIRuleEngine._set_cache`: store the data with a fresh timestamp. -/
def setCache (data : List Rule) (now : ℚ) : CacheEntry :=
  { data := data, timestamp := now }

/-- The processing `_get_entity_rules` applies to a fetched rule list
before caching: keep active rules, stable-sort by priority descending
(Python `list.sort(key=..., reverse=True)` is stable). -/
def processFetched (rules : List Rule) : List Rule :=
  (rules.filter (fun r => r.isActive)).mergeSort
    (fun a b => decide (b.priority ≤ a.priority))

/-- `AIRuleEngine._get_entity_rules`: return the cached data when the
entry is live, otherwise invoke the store lookup
(`db.get_entity_replacements`), filter/sort it, cache it with a fresh
timestamp and return it.  Result: (new cache slot, returned payload,
whether the fetch was invoked).  The `except` path (fetch failure) is
not modelled: the fetch function is total here. -/
def getEntityRules (c : Option CacheEntry) (now : ℚ) (taskId : Int)
    (fetch : Int → List Rule) : Option CacheEntry × List Rule × Bool :=
  match getCachedData c now with
  | some cached => (c, cached, false)
  | none =>
    let activeRules := processFetched (fetch taskId)
    (some (setCache activeRules now), activeRules, true)

end RuleCache

namespace Postprocess

/-- Python `\s` whitespace class (`re` default on ASCII + the same chars
`str.strip()` removes for these texts). -/
def isPySpace (c : Char) : Bool :=
  c == ' ' || c == '\t' || c == '\n' || c == '\r' || c == '\x0b' || c == '\x0c'

/-- Python `str.strip()`: drop leading and trailing whitespace. -/
def pyStrip (s : String) : String :=
  String.mk ((s.data.dropWhile isPySpace).reverse.dropWhile isPySpace |>.reverse)

/-- ASCII lowercasing, modelling `re.IGNORECASE` for the ASCII-letter
patterns that appear in `forbidden_patterns`. -/
def lowerAscii (s : String) : String :=
  String.mk (s.data.map (fun c =>
    if 'A' ≤ c ∧ c ≤ 'Z' then Char.ofNat (c.toNat + 32) else c))

/-- Substring search (`re.search` of a literal pattern). -/
def containsSub (pat : List Char) : List Char → Bool
  | [] => pat.isEmpty
  | c :: cs => pat.isPrefixOf (c :: cs) || containsSub pat cs

/-- `re.search` of a literal string pattern in `s`. -/
def strContains (s pat : String) : Bool :=
  containsSub pat.data s.data

/-- Match the regex `w₁\s+w₂\s+…\s+wₙ` at the start of `cs`. -/
def matchWordsAt : List (List Char) → List Char → Bool
  | [], _ => true
  | [w], cs => w.isPrefixOf cs
  | w :: ws, cs =>
    if w.isPrefixOf cs then
      let rest := cs.drop w.length
      (rest.takeWhile isPySpace).length != 0 && matchWordsAt ws (rest.dropWhile isPySpace)
    else false

/-- Search the regex `w₁\s+…\s+wₙ` anywhere in the character list. -/
def searchWordsAux (ws : List (List Char)) : List Char → Bool
  | [] => matchWordsAt ws []
  | c :: cs => matchWordsAt ws (c :: cs) || searchWordsAux ws cs

/-- Search the regex `w₁\s+…\s+wₙ` anywhere in the string. -/
def searchWords (ws : List String) (s : String) : Bool :=
  searchWordsAux (ws.map String.data) s.data

/-- `AIPostprocessingEngine.forbidden_patterns`, in source order, each
pattern translated from its regex: `\s+` becomes a nonempty whitespace
run, `^…\s*$` an exact match up to trailing whitespace, the rest are
literal searches (case-insensitive for the ASCII ones). -/
def forbiddenMatch (output : String) : Bool :=
  let lower := lowerAscii output
  searchWords ["كمساعد", "ذكاء", "اصطناعي"] output ||
  searchWords ["أنا", "نموذج", "لغة"] output ||
  searchWords ["لا", "أستطيع", "تلخيص"] output ||
  strContains lower "i am an ai" ||
  strContains lower "as an ai assistant" ||
  strContains lower "i cannot summarize" ||
  strContains output "ملخص:" ||
  ("ملخص".data.isPrefixOf output.data && (output.data.drop 4).all isPySpace) ||
  strContains lower "summary:" ||
  strContains lower "here is the summary"

/-- One entry of the validation report (`ValidationResult`); the
free-text `details` field is omitted (diagnostic only). -/
structure ValidationResult where
  checkName : String
  passed : Bool
  severity : String := "info"
  deriving Repr, DecidableEq

/-- Does a line start (after leading whitespace) with a bullet or a
numbered-list marker?  This is the per-line reading of the MULTILINE
regexes `^\s*[•\-\*]`, `\n\s*[•\-\*]`, `^\s*\d+\.`, `\n\s*\d+\.`
(equivalent because a `\s*` run crossing newlines still leaves an
all-whitespace line head before the marker). -/
def lineStartsBulletOrNum (l : String) : Bool :=
  let t := l.data.dropWhile isPySpace
  match t with
  | [] => false
  | c :: _ =>
    c == '•' || c == '-' || c == '*' ||
    (let ds := t.takeWhile Char.isDigit
     ds.length != 0 &&
       (match t.drop ds.length with
        | '.' :: _ => true
        | _ => false))

/-- Characters on which `_validate_output` splits sentences. -/
def sentenceSeps : List Char := ['.', '!', '?', '،']

/-- Split a character list at every character satisfying `p`
(Python `re.split` on a character class). -/
def splitPred (p : Char → Bool) : List Char → List (List Char)
  | [] => [[]]
  | c :: cs =>
    if p c then [] :: splitPred p cs
    else match splitPred p cs with
      | h :: t => (c :: h) :: t
      | [] => [[c]]

/-- The sentence set used by the originality check: split on
`[.!?،]`, strip, keep the ones longer than 20 characters, as a set
(modelled as a deduplicated list). -/
def sentenceSet (s : String) : List String :=
  ((((splitPred (fun c => c ∈ sentenceSeps) s.data).map String.mk).map pyStrip).filter
    (fun t => 20 < t.length)).dedup

/-- Number of Arabic characters (`[؀-ۿ]`). -/
def arabicCount (s : String) : Nat :=
  (s.data.filter (fun c => 0x600 ≤ c.toNat ∧ c.toNat ≤ 0x6FF)).length

/-- `AIPostprocessingEngine._validate_output`: the six checks, in
source order, with their severities.  Ratio thresholds
`min_output_ratio = 0.1` and `max_output_ratio = 1.5`. -/
def validateOutput (output original : String) : List ValidationResult :=
  let v1 := if output = "" ∨ (pyStrip output).length < 10 then
      ({ checkName := "output_exists", passed := false, severity := "error" } : ValidationResult)
    else { checkName := "output_exists", passed := true }
  let hasBullets :=
    ((splitPred (fun c => c == '\n') output.data).map String.mk).any lineStartsBulletOrNum
  let v2 := if hasBullets then
      ({ checkName := "news_format", passed := false, severity := "warning" } : ValidationResult)
    else { checkName := "news_format", passed := true }
  let ratioList : List ValidationResult :=
    if original ≠ "" then
      let ratio : ℚ := if 0 < original.length then
          (output.length : ℚ) / (original.length : ℚ) else 1
      if ratio < 1 / 10 then
        [{ checkName := "length_ratio", passed := false, severity := "warning" }]
      else if 3 / 2 < ratio then
        [{ checkName := "length_ratio", passed := false, severity := "warning" }]
      else [{ checkName := "length_ratio", passed := true }]
    else []
  let v4 := if forbiddenMatch output then
      ({ checkName := "forbidden_content", passed := false, severity := "warning" } : ValidationResult)
    else { checkName := "forbidden_content", passed := true }
  let origList : List ValidationResult :=
    if original ≠ "" then
      let os := sentenceSet original
      let us := sentenceSet output
      if os ≠ [] ∧ us ≠ [] then
        let overlap := (os.filter (fun t => t ∈ us)).length
        if (os.length : ℚ) * (8 / 10) < (overlap : ℚ) then
          [{ checkName := "originality", passed := false, severity := "warning" }]
        else [{ checkName := "originality", passed := true }]
      else []
    else []
  let langList : List ValidationResult :=
    if (original.length : ℚ) * (3 / 10) < (arabicCount original : ℚ) then
      if (arabicCount output : ℚ) < (output.length : ℚ) * (2 / 10) then
        [{ checkName := "language_consistency", passed := false, severity := "warning" }]
      else [{ checkName := "language_consistency", passed := true }]
    else []
  v1 :: v2 :: ratioList ++ v4 :: origList ++ langList

/-- Bool: does some error-severity validation fail? (the
`failed_critical` test in `AIPostprocessingEngine.process`). -/
def errorFailed (l : List ValidationResult) : Bool :=
  l.any (fun v => !v.passed && v.severity == "error")

/-- `AIPostprocessingEngine._verify_rules_applied`: for each recorded
entity replacement, the rule is verified iff the replacement text is
present in the output and the original text is absent; context
modifications are always marked verified.  The Python dict is modelled
as an association list (its keys, `entity_<type>_<orig[:20]>` and
`context_<mod[:20]>`, are assumed distinct, which holds unless two
records share a 20-character key prefix). -/
def verifyRulesApplied (output : String)
    (entitiesReplaced : List (String × List (String × String)))
    (contextMods : List String) : List (String × Bool) :=
  (entitiesReplaced.flatMap (fun er =>
    er.2.map (fun rep =>
      ("entity_" ++ er.1 ++ "_" ++ String.mk (rep.1.data.take 20),
        strContains output rep.2 && !(strContains output rep.1))))) ++
  contextMods.map (fun m => ("context_" ++ String.mk (m.data.take 20), true))

/-- Strip `\*\*([^*]+)\*\*` (bold) with `re.sub` scan semantics:
left-to-right, non-overlapping, resume after each match. -/
def subBold : List Char → List Char
  | [] => []
  | c :: cs =>
    if c = '*' then
      match cs with
      | '*' :: rest =>
        if (rest.takeWhile (fun x => !(x == '*'))).length != 0 ∧
            (rest.dropWhile (fun x => !(x == '*'))).take 2 = ['*', '*'] then
          rest.takeWhile (fun x => !(x == '*')) ++
            subBold ((rest.dropWhile (fun x => !(x == '*'))).drop 2)
        else c :: subBold ('*' :: rest)
      | other => c :: subBold other
    else c :: subBold cs
  termination_by l => l.length
  decreasing_by
    · have h2 : (rest.dropWhile (fun x => !(x == '*'))).length ≤ rest.length :=
        (List.dropWhile_sublist _).length_le
      rw [List.length_drop]
      simp only [List.length_cons]
      omega
    · simp [List.length_cons]
    · simp [List.length_cons]
    · simp [List.length_cons]

/-- Strip `\*([^*]+)\*` (italics) with `re.sub` scan semantics. -/
def subItalic : List Char → List Char
  | [] => []
  | c :: cs =>
    if c = '*' then
      if (cs.takeWhile (fun x => !(x == '*'))).length != 0 ∧
          (cs.dropWhile (fun x => !(x == '*'))).take 1 = ['*'] then
        cs.takeWhile (fun x => !(x == '*')) ++
          subItalic ((cs.dropWhile (fun x => !(x == '*'))).drop 1)
      else c :: subItalic cs
    else c :: subItalic cs
  termination_by l => l.length
  decreasing_by
    · have h2 : (cs.dropWhile (fun x => !(x == '*'))).length ≤ cs.length :=
        (List.dropWhile_sublist _).length_le
      rw [List.length_drop]
      simp only [List.length_cons]
      omega
    · simp [List.length_cons]
    · simp [List.length_cons]

/-- Strip `#{1,6}\s*` (headers): up to six hashes and the following
whitespace are removed; scanning resumes after the removed run. -/
def subHeaders : List Char → List Char
  | [] => []
  | c :: cs =>
    if c = '#' then
      subHeaders (((c :: cs).drop
        (min ((c :: cs).takeWhile (fun x => x == '#')).length 6)).dropWhile isPySpace)
    else c :: subHeaders cs
  termination_by l => l.length
  decreasing_by
    · rename_i h
      have h1 : ((((c :: cs).drop
            (min ((c :: cs).takeWhile (fun x => x == '#')).length 6)).dropWhile
              isPySpace)).length ≤
          ((c :: cs).drop
            (min ((c :: cs).takeWhile (fun x => x == '#')).length 6)).length :=
        (List.dropWhile_sublist _).length_le
      have h2 : ((c :: cs).takeWhile (fun x => x == '#')).length =
          (cs.takeWhile (fun x => x == '#')).length + 1 := by
        simp [List.takeWhile_cons, h]
      rw [List.length_drop] at h1
      simp only [List.length_cons] at h1 h2 ⊢
      omega
    · simp [List.length_cons]

/-- Cleanup pattern `\n{3,}` → `\n\n`: collapse every run of three or
more newlines to exactly two (`n` counts the newlines of the current
run). -/
def collapseNewlinesAux (n : Nat) : List Char → List Char
  | [] => List.replicate (if 3 ≤ n then 2 else n) '\n'
  | c :: cs =>
    if c = '\n' then collapseNewlinesAux (n + 1) cs
    else List.replicate (if 3 ≤ n then 2 else n) '\n' ++ c :: collapseNewlinesAux 0 cs

/-- Cleanup pattern `\n{3,}` → `\n\n`. -/
def collapseNewlines (l : List Char) : List Char :=
  collapseNewlinesAux 0 l

/-- The punctuation class `[،,\.!?]` of the cleanup patterns. -/
def isCleanupPunct (c : Char) : Bool :=
  c == '،' || c == ',' || c == '.' || c == '!' || c == '?'

/-- Cleanup pattern `\s+([،,\.!?])` → `\1`: a whitespace run (held in
`pending`) immediately followed by a punctuation character is dropped;
`re.sub` resumes scanning after the punctuation character.  (No match
can start inside a whitespace run, so flushing the run on any other
character is faithful to the left-to-right scan.) -/
def dropSpaceBeforePunctAux (pending : List Char) : List Char → List Char
  | [] => pending
  | c :: cs =>
    if isPySpace c then dropSpaceBeforePunctAux (pending ++ [c]) cs
    else if isCleanupPunct c ∧ pending ≠ [] then c :: dropSpaceBeforePunctAux [] cs
    else pending ++ c :: dropSpaceBeforePunctAux [] cs

/-- Cleanup pattern `\s+([،,\.!?])` → `\1`. -/
def dropSpaceBeforePunct (l : List Char) : List Char :=
  dropSpaceBeforePunctAux [] l

/-- Cleanup pattern `([،,\.!?])\s*([،,\.!?])` → `\1`: the state holds a
seen punctuation character and the whitespace after it; a second
punctuation character completes the match (replaced by the first
character alone, scan resuming after the match).  (No match can start
at a whitespace character, so flushing is faithful.) -/
def collapsePunctPairsAux : Option (Char × List Char) → List Char → List Char
  | none, [] => []
  | some (p, ws), [] => p :: ws
  | none, c :: cs =>
    if isCleanupPunct c then collapsePunctPairsAux (some (c, [])) cs
    else c :: collapsePunctPairsAux none cs
  | some (p, ws), c :: cs =>
    if isPySpace c then collapsePunctPairsAux (some (p, ws ++ [c])) cs
    else if isCleanupPunct c then p :: collapsePunctPairsAux none cs
    else p :: ws ++ c :: collapsePunctPairsAux none cs

/-- Cleanup pattern `([،,\.!?])\s*([،,\.!?])` → `\1`. -/
def collapsePunctPairs (l : List Char) : List Char :=
  collapsePunctPairsAux none l

/-- `AIPostprocessingEngine._final_cleanup`: the `required_cleanups`
substitutions in source order, then `str.strip()`.  The last two
patterns, `^\s+` → `''` and `\s+$` → `''`, remove exactly the leading
and trailing whitespace that the final `strip()` would remove anyway,
so the three are modelled together by `pyStrip`. -/
def finalCleanup (text : String) : String :=
  pyStrip (String.mk (collapsePunctPairs (dropSpaceBeforePunct
    (collapseNewlines text.data))))

/-- Join lines with newlines (`'\n'.join`). -/
def joinNewline : List (List Char) → List Char
  | [] => []
  | [l] => l
  | l :: ls => l ++ '\n' :: joinNewline ls

/-- `AIPostprocessingEngine._apply_formatting`, `markdown` branch: when
the text shows no markdown/bullet characters at all, strip each line
and bold-wrap short lines ending in `:` (recording `bold_headers`).
(The `startswith(('-','•','*','–'))` elif appends the stripped line
exactly like the else branch, so both are one case here.) -/
def applyFormattingMarkdown (text : String) : String × List String :=
  if strContains text "**" || strContains text "*" || strContains text "•" ||
      strContains text "-" || strContains text "#" then
    (text, [])
  else
    let step := ((splitPred (fun c => c == '\n') text.data).map String.mk).foldl
      (fun (acc : List String × List String) line =>
        let l := pyStrip line
        if l = "" then (acc.1 ++ [""], acc.2)
        else if (l.data.reverse.head? = some ':') ∧ l.length < 50 then
          (acc.1 ++ ["**" ++ l ++ "**"], acc.2 ++ ["bold_headers"])
        else (acc.1 ++ [l], acc.2))
      ([], [])
    (String.mk (joinNewline (step.1.map String.data)), step.2)

/-- `AIPostprocessingEngine._apply_formatting`: dispatch on the output
format.  `plain` strips bold, italics and headers (recording
`stripped_markdown`); `html` replaces `**` by `<strong>` (the second
`replace` of the source finds no `**` left and is a no-op) and
newlines by `<br>` (recording `html_conversion`); anything else (and
`markdown` when markdown characters are present) passes through. -/
def applyFormatting (text : String) (outputFormat : String) : String × List String :=
  if outputFormat = "markdown" then
    applyFormattingMarkdown text
  else if outputFormat = "plain" then
    (String.mk (subHeaders (subItalic (subBold text.data))), ["stripped_markdown"])
  else if outputFormat = "html" then
    ((((text.replace "**" "<strong>").replace "**" "</strong>").replace "\n" "<br>\n"),
      ["html_conversion"])
  else (text, [])

/-- `AIPostprocessingEngine._calculate_quality_score`: start from 1.0,
subtract 0.3 per failed error-severity check and 0.1 per failed
warning-severity check, blend 70/30 with the verified-rule fraction
when any rules were checked, and clamp to [0, 1].  (The `output` and
`original` parameters of the source are unused by its body and are
omitted.) -/
def calculateQualityScore (validations : List ValidationResult)
    (rulesVerified : List (String × Bool)) : ℚ :=
  let base := validations.foldl
    (fun score v =>
      if v.passed = false then
        if v.severity = "error" then score - 3 / 10
        else if v.severity = "warning" then score - 1 / 10
        else score
      else score) 1
  let blended :=
    if rulesVerified ≠ [] then
      if 0 < rulesVerified.length then
        base * (7 / 10) +
          ((rulesVerified.filter (fun rv => rv.2)).length : ℚ) /
            (rulesVerified.length : ℚ) * (3 / 10)
      else base
    else base
  max 0 (min 1 blended)

/-- The parts of `PostprocessingResult` the claims concern (the
diagnostic `warnings`/`errors` string lists and timing are omitted). -/
structure PostprocessingResult where
  finalOutput : String
  validations : List ValidationResult
  rulesVerified : List (String × Bool)
  formattingApplied : List String
  qualityScore : ℚ
  success : Bool

/-- The configuration keys `AIPostprocessingEngine.process` reads, with
their `config.get` defaults. -/
structure PPConfig where
  enableOutputValidation : Bool := true
  enableRuleVerification : Bool := true
  outputFormat : String := "markdown"

/-- The parts of the rule-engine result that postprocessing reads. -/
structure RuleEngineSummary where
  entitiesReplaced : List (String × List (String × String)) := []
  contextModifications : List String := []

/-- `AIPostprocessingEngine.process`: on blank AI output return the
`_empty_result` (success, quality 0.5, original text as output);
otherwise validate the stripped output, verify recorded rules, apply
formatting and final cleanup, compute the quality score, and succeed
iff no error-severity validation failed. -/
def postprocess (aiOutput original : String) (ruleResult : Option RuleEngineSummary)
    (config : PPConfig) : PostprocessingResult :=
  if aiOutput = "" ∨ pyStrip aiOutput = "" then
    { finalOutput := original
      validations := [{ checkName := "output_exists", passed := false, severity := "warning" }]
      rulesVerified := []
      formattingApplied := []
      qualityScore := 1 / 2
      success := true }
  else
    let processed0 := pyStrip aiOutput
    let validations :=
      if config.enableOutputValidation then validateOutput processed0 original else []
    let rulesVerified :=
      match ruleResult with
      | some rr =>
          if config.enableRuleVerification then
            verifyRulesApplied processed0 rr.entitiesReplaced rr.contextModifications
          else []
      | none => []
    let fm := applyFormatting processed0 config.outputFormat
    let processed1 := finalCleanup fm.1
    { finalOutput := processed1
      validations := validations
      rulesVerified := rulesVerified
      formattingApplied := fm.2
      qualityScore := calculateQualityScore validations rulesVerified
      success := !errorFailed validations }

/-- Number of failed validations of a given severity. -/
def countFailed (sev : String) (l : List ValidationResult) : Nat :=
  (l.filter (fun v => v.passed = false ∧ v.severity = sev)).length

end Postprocess

namespace Pipeline

open Postprocess

/-- The fields of the stage-2 `RuleEngineResult` that
`AIPipeline.process` reads. -/
structure RuleStageResult where
  processedText : String
  success : Bool
  entitiesReplaced : List (String × List (String × String)) := []
  contextModifications : List String := []

/-- One entry of the per-stage trace: name and success flag (timings
and text snippets are diagnostic only and omitted). -/
structure StageRecord where
  stageName : String
  success : Bool

/-- The fields of `PipelineResult` the claims concern. -/
structure PipelineResultE where
  originalText : String
  finalText : String
  stages : List StageRecord
  qualityScore : ℚ
  success : Bool
  post : Option PostprocessingResult

/-- `AIPipeline.process` with the stage collaborators supplied as
values: the preprocessing stage is always recorded successful, the
rule stage carries the rule-engine result, the generate stage succeeds
iff the AI output is non-blank (`if ai_output and ai_output.strip()`),
the rule-applied text is kept as the current text when generation
fails, postprocessing runs on the final current text against the
original input, and the overall `success` is the conjunction of all
four stage flags (`success=all(s.success for s in stages)`).  Blank
input short-circuits to `_empty_result` (success, no stages). -/
def pipelineProcess (text : String) (ruleResult : RuleStageResult)
    (aiOutput : String) (config : PPConfig) : PipelineResultE :=
  if text = "" ∨ pyStrip text = "" then
    { originalText := text, finalText := text, stages := [],
      qualityScore := 1, success := true, post := none }
  else
    let stage1 : StageRecord := { stageName := "preprocessing", success := true }
    let stage2 : StageRecord := { stageName := "rule_engine", success := ruleResult.success }
    let current1 := ruleResult.processedText
    let aiOk : Bool := !(aiOutput = "" ∨ pyStrip aiOutput = "" : Bool)
    let stage3 : StageRecord := { stageName := "ai_summarization", success := aiOk }
    let current2 := if aiOk then aiOutput else current1
    let post := postprocess current2 text
      (some { entitiesReplaced := ruleResult.entitiesReplaced,
              contextModifications := ruleResult.contextModifications }) config
    let stage4 : StageRecord := { stageName := "postprocessing", success := post.success }
    let stages := [stage1, stage2, stage3, stage4]
    { originalText := text, finalText := post.finalOutput, stages := stages,
      qualityScore := post.qualityScore,
      success := stages.all (fun s => s.success), post := some post }

/-- The postprocess validation report of a pipeline run (empty when the
run short-circuited on blank input). -/
def postValidations (r : PipelineResultE) : List ValidationResult :=
  (r.post.map PostprocessingResult.validations).getD []

end Pipeline

namespace MediaGroup

/-- The task-configuration fields the media-group flush path reads
(`task_config.get("target_channels", [])` and the AI/summarization
enabled flags). -/
structure TaskConfig where
  targetChannels : List Int := []
  aiEnabled : Bool := false
  deriving Repr, DecidableEq

/-- `media_group_config[cache_key]`: the per-group record captured when
the first item of the group arrives (`task_id`, `task_config`). -/
structure GroupConfig where
  taskId : Int
  taskConfig : TaskConfig
  deriving Repr, DecidableEq

/-- Association-list read, modelling a Python dict lookup. -/
def lookupKey (kvs : List (String × α)) (k : String) : Option α :=
  (kvs.find? (fun p => p.1 == k)).map (fun p => p.2)

/-- Association-list write, modelling a Python dict assignment. -/
def setKey (kvs : List (String × α)) (k : String) (v : α) : List (String × α) :=
  match kvs with
  | [] => [(k, v)]
  | p :: rest => if p.1 = k then (k, v) :: rest else p :: setKey rest k v

/-- Association-list delete, modelling a Python dict `pop`. -/
def removeKey (kvs : List (String × α)) (k : String) : List (String × α) :=
  kvs.filter (fun p => !(p.1 == k))

/-- The two dicts of `ForwardingEngine` the media-group aggregator
mutates under `media_group_lock`: `media_group_cache` (group key →
buffered messages in arrival order) and `media_group_config` (group
key → captured config).  Messages are identified by their ids. -/
structure MGState where
  cache : List (String × List Nat)
  config : List (String × GroupConfig)
  deriving Repr, DecidableEq

/-- The empty aggregator state. -/
def MGState.init : MGState := ⟨[], []⟩

/-- `ForwardingEngine._handle_media_group`: under the lock, create the
cache entry and capture the config on a previously-unseen group key,
then append the message; only the first message schedules the flush,
2.5 seconds later (`asyncio.sleep(2.5)` in the scheduled task).  The
returned option is the scheduled flush time (`none` for later
arrivals, which never reschedule). -/
def handleMediaGroup (s : MGState) (now : ℚ) (key : String) (msg : Nat)
    (taskId : Int) (cfg : TaskConfig) : MGState × Option ℚ :=
  match lookupKey s.cache key with
  | none =>
    ({ cache := setKey s.cache key ([] ++ [msg]),
       config := setKey s.config key { taskId := taskId, taskConfig := cfg } },
     some (now + 5 / 2))
  | some msgs =>
    ({ s with cache := setKey s.cache key (msgs ++ [msg]) }, none)

/-- `ForwardingEngine._process_media_group_after_delay`, the part under
the lock: a key absent from the cache means already flushed (or never
buffered), so the call is a no-op; otherwise pop the messages and the
captured config and hand them to processing as one unit. -/
def processAfterDelay (s : MGState) (key : String) :
    MGState × Option (List Nat × GroupConfig) :=
  match lookupKey s.cache key with
  | none => (s, none)
  | some msgs =>
    let cfg := (lookupKey s.config key).getD { taskId := 0, taskConfig := {} }
    ({ cache := removeKey s.cache key, config := removeKey s.config key },
     some (msgs, cfg))

/-- The dispatch target list of the flush handler: read from the popped
(captured-at-buffering) `task_config`, not from any store state read at
flush time (`target_channels = task_config.get("target_channels", [])`). -/
def flushDispatchTargets (popped : GroupConfig) : List Int :=
  popped.taskConfig.targetChannels

/-- An event of the aggregator: an item arrival or a flush-timer
firing. -/
inductive MGEvent where
  | arrive (now : ℚ) (key : String) (msg : Nat) (taskId : Int) (cfg : TaskConfig)
  | fire (now : ℚ) (key : String)

/-- Run a sequence of events; collect the flushes that actually handed
a batch to processing, as (fire time, key, messages, popped config). -/
def runEvents (s : MGState) :
    List MGEvent → MGState × List (ℚ × String × List Nat × GroupConfig)
  | [] => (s, [])
  | MGEvent.arrive now key msg taskId cfg :: rest =>
    runEvents (handleMediaGroup s now key msg taskId cfg).1 rest
  | MGEvent.fire now key :: rest =>
    let step := processAfterDelay s key
    let res := runEvents step.1 rest
    match step.2 with
    | some flushed => (res.1, (now, key, flushed.1, flushed.2) :: res.2)
    | none => res

end MediaGroup

namespace SerialNumber

/-- `Database.get_next_serial_number` as the sequential (uninterleaved)
operation on one owner's counter row (`archive_serial_counter`):
no row yet → INSERT 1 and return 1; row with `last_serial = n` →
UPDATE to `n + 1` and return it. -/
def getNextSerialSeq : Option Nat → Option Nat × Nat
  | none => (some 1, 1)
  | some n => (some (n + 1), n + 1)

/-- `n` back-to-back sequential allocations: final counter row and the
returned serials in order. -/
def seqAllocs (s : Option Nat) : Nat → Option Nat × List Nat
  | 0 => (s, [])
  | n + 1 =>
    let st := getNextSerialSeq s
    let rest := seqAllocs st.1 n
    (rest.1, st.2 :: rest.2)

/-- The two steps of one `get_next_serial_number` call: the SELECT of
the counter row, then the UPDATE/INSERT with the returned value.  The
method performs them as separate awaited statements with no
transaction, so steps of concurrent calls can interleave. -/
structure ClientState where
  readVal : Option (Option Nat) := none
  result : Option Nat := none
  deriving Repr, DecidableEq

/-- One step of a client: perform its SELECT if not yet done, else its
UPDATE/INSERT computed from the value it read; finished clients do
nothing. -/
def stepClient (db : Option Nat) (c : ClientState) : Option Nat × ClientState :=
  match c.readVal, c.result with
  | none, _ => (db, { c with readVal := some db })
  | some r, none =>
    match r with
    | none => (some 1, { c with result := some 1 })
    | some n => (some (n + 1), { c with result := some (n + 1) })
  | some _, some _ => (db, c)

/-- Two concurrent `get_next_serial_number` calls for one owner. -/
structure ConcState where
  db : Option Nat
  a : ClientState
  b : ClientState
  deriving Repr, DecidableEq

/-- Which client runs its next step. -/
inductive Agent where
  | A
  | B
  deriving Repr, DecidableEq

/-- Run an interleaving schedule of the two clients' steps. -/
def runSchedule (s : ConcState) : List Agent → ConcState
  | [] => s
  | Agent.A :: rest =>
    runSchedule { s with db := (stepClient s.db s.a).1, a := (stepClient s.db s.a).2 } rest
  | Agent.B :: rest =>
    runSchedule { s with db := (stepClient s.db s.b).1, b := (stepClient s.db s.b).2 } rest

end SerialNumber

namespace Queue

/-- One row of `queue_jobs`, with the fields the worker path touches.
Timestamps are epoch integers (no arithmetic is done on them). -/
structure JobRow where
  id : Nat := 0
  jobType : String := ""
  status : String := "pending"
  priority : Int := 0
  createdAt : Int := 0
  result : Option String := none
  error : String := ""
  attempts : Nat := 0
  maxAttempts : Nat := 3
  processedAt : Option Int := none
  deriving Repr, DecidableEq

/-- `Database.update_job_status`: one UPDATE setting status, result,
`error or ""`, `processed_at = NOW()` and, unconditionally,
`attempts = attempts + 1`. -/
def updateJobStatus (row : JobRow) (status : String) (result : Option String)
    (error : Option String) (now : Int) : JobRow :=
  { row with
    status := status
    result := result
    error := error.getD ""
    attempts := row.attempts + 1
    processedAt := some now }

/-- `QueueWorker.process_job`: `job` is the row as fetched from the
queue (the Python dict snapshot); the DB row starts equal to it.  Mark
`processing`; run the handler; on success mark `completed` with the
result (returning True); on a handler exception mark `failed` when the
*fetched* `job["attempts"] >= job["max_attempts"]`, else set the row
back to `pending` (returning False). -/
def processJob (job : JobRow) (outcome : Except String String)
    (t1 t2 : Int) : JobRow × Bool :=
  let row1 := updateJobStatus job "processing" none none t1
  match outcome with
  | Except.ok res => (updateJobStatus row1 "completed" (some res) none t2, true)
  | Except.error e =>
    (updateJobStatus row1
      (if job.maxAttempts ≤ job.attempts then "failed" else "pending")
      none (some e) t2, false)

/-- `Database.get_pending_jobs`: rows with status `'pending'`, ordered
by `priority DESC, created_at ASC` (stable sort). -/
def getPendingJobs (rows : List JobRow) : List JobRow :=
  (rows.filter (fun r => r.status == "pending")).mergeSort
    (fun a b => decide (b.priority < a.priority ∨
      (a.priority = b.priority ∧ a.createdAt ≤ b.createdAt)))

end Queue

-- ==================================================================
-- Theorems
-- ==================================================================


namespace RateLimiter

theorem canRequest_tpmOnly (s : RLState) (hrc : s.requestCounter = none)
    (hdc : s.dailyTokenCounter = none) (t c L : ℚ) (hL : L ≠ 0) :
    canRequest s t 0 c L 0 0 =
      (let b1 := refillBucket (s.tokenBucket.getD { tokens := L, lastRefill := t }) t L
       if b1.tokens < c then
         ({ requestCounter := none, tokenBucket := some b1,
            dailyTokenCounter := none }, false)
       else
         ({ requestCounter := none,
            tokenBucket := some { b1 with tokens := b1.tokens - c },
            dailyTokenCounter := none }, true)) := by
  obtain ⟨rc, tb, dc⟩ := s
  simp only at hrc hdc
  subst hrc hdc
  simp only [canRequest, checkTpm, recordRequest, hL, ne_eq, not_true_eq_false,
    not_false_eq_true, if_true, if_false, ite_self]
  norm_num
  split <;> rfl


theorem refill_potential_le (b : TokenBucket) (now L : ℚ) :
    (refillBucket b now L).tokens - L / 60 * (refillBucket b now L).lastRefill ≤
      b.tokens - L / 60 * b.lastRefill := by
  unfold refillBucket
  split
  · have h := min_le_right L (b.tokens + L / 60 * (now - b.lastRefill))
    simp only
    nlinarith [h]
  · exact le_rfl

theorem refill_tokens_nonneg (b : TokenBucket) (now L : ℚ) (hL : 0 ≤ L)
    (hb : 0 ≤ b.tokens) : 0 ≤ (refillBucket b now L).tokens := by
  unfold refillBucket
  split
  · rename_i h
    refine le_min hL ?_
    nlinarith
  · exact hb

theorem refill_lastRefill_le (b : TokenBucket) (now L t : ℚ)
    (hb : b.lastRefill ≤ t) (hnow : now ≤ t) :
    (refillBucket b now L).lastRefill ≤ t := by
  unfold refillBucket
  split <;> simp [hb, hnow]

theorem tpm_trace_bound (L : ℚ) (hL : 0 < L) (tmin T : ℚ) (hTT : tmin ≤ T) :
    ∀ (reqs : List (ℚ × ℚ)) (s : RLState),
      s.requestCounter = none → s.dailyTokenCounter = none →
      (∀ p ∈ reqs, 0 ≤ p.2) →
      (∀ p ∈ reqs, tmin ≤ p.1 ∧ p.1 ≤ T) →
      List.Pairwise (fun p q => p.1 ≤ q.1) reqs →
      (∀ b, s.tokenBucket = some b →
        0 ≤ b.tokens ∧ b.lastRefill ≤ T ∧ ∀ p ∈ reqs, b.lastRefill ≤ p.1) →
      (runTpmTrace s L reqs).2 ≤ bucketPotential s.tokenBucket L tmin + L / 60 * T
  | [], s, _, _, _, _, _, hb => by
    simp only [runTpmTrace]
    rcases htb : s.tokenBucket with _ | b
    · simp only [bucketPotential]
      nlinarith
    · obtain ⟨h1, h2, _⟩ := hb b htb
      simp only [bucketPotential]
      nlinarith
  | (t, c) :: rest, s, hrc, hdc, hcost, hwin, hsort, hb => by
    have hL' : L ≠ 0 := ne_of_gt hL
    have hstep := canRequest_tpmOnly s hrc hdc t c L hL'
    obtain ⟨htmin, htT⟩ := hwin (t, c) (List.mem_cons_self _ _)
    have hc0 : 0 ≤ c := hcost (t, c) (List.mem_cons_self _ _)
    have hrest_le : ∀ p ∈ rest, t ≤ p.1 := (List.pairwise_cons.mp hsort).1
    set b0 := s.tokenBucket.getD { tokens := L, lastRefill := t } with hb0
    set b1 := refillBucket b0 t L with hb1
    have hb0tok : 0 ≤ b0.tokens := by
      rcases htb : s.tokenBucket with _ | b
      · simp [hb0, htb, hL.le]
      · simpa [hb0, htb] using (hb b htb).1
    have hb0lr : b0.lastRefill ≤ t := by
      rcases htb : s.tokenBucket with _ | b
      · simp [hb0, htb]
      · simpa [hb0, htb] using (hb b htb).2.2 (t, c) (List.mem_cons_self _ _)
    have hb1tok : 0 ≤ b1.tokens := refill_tokens_nonneg b0 t L (le_of_lt hL) hb0tok
    have hb1lr : b1.lastRefill ≤ t := refill_lastRefill_le b0 t L t hb0lr le_rfl
    have hb1lrT : b1.lastRefill ≤ T := le_trans hb1lr htT
    have hb1lr_rest : ∀ p ∈ rest, b1.lastRefill ≤ p.1 := fun p hp =>
      le_trans hb1lr (hrest_le p hp)
    have hpot1 : b1.tokens - L / 60 * b1.lastRefill ≤
        bucketPotential s.tokenBucket L tmin := by
      rcases htb : s.tokenBucket with _ | b
      · have hb0eq : b0 = { tokens := L, lastRefill := t } := by simp [hb0, htb]
        have hb1eq : b1 = b0 := by
          simp [hb1, hb0eq, refillBucket]
        rw [hb1eq, hb0eq]
        have hmono : L / 60 * tmin ≤ L / 60 * t :=
          mul_le_mul_of_nonneg_left htmin (div_nonneg hL.le (by norm_num))
        show L - L / 60 * t ≤ L - L / 60 * tmin
        linarith
      · have hb0eq : b0 = b := by simp [hb0, htb]
        have h := refill_potential_le b0 t L
        rw [hb0eq] at h
        have hpots : bucketPotential (some b) L tmin = b.tokens - L / 60 * b.lastRefill := rfl
        rw [hpots, hb1, hb0eq]
        exact h
    have hcost' : ∀ p ∈ rest, 0 ≤ p.2 := fun p hp => hcost p (List.mem_cons_of_mem _ hp)
    have hwin' : ∀ p ∈ rest, tmin ≤ p.1 ∧ p.1 ≤ T :=
      fun p hp => hwin p (List.mem_cons_of_mem _ hp)
    have hsort' : List.Pairwise (fun p q => p.1 ≤ q.1) rest :=
      (List.pairwise_cons.mp hsort).2
    simp only [runTpmTrace, hstep]
    by_cases hdeny : b1.tokens < c
    · have ih := tpm_trace_bound L hL tmin T hTT rest
        { requestCounter := none, tokenBucket := some b1, dailyTokenCounter := none }
        rfl rfl hcost' hwin' hsort'
        (fun b hbeq => by
          simp only [Option.some.injEq] at hbeq
          subst hbeq
          exact ⟨hb1tok, hb1lrT, hb1lr_rest⟩)
      simp only [bucketPotential] at ih
      simp only [if_pos hdeny]
      simp only [Bool.false_eq_true, if_false]
      linarith
    · have ih := tpm_trace_bound L hL tmin T hTT rest
        { requestCounter := none,
          tokenBucket := some { b1 with tokens := b1.tokens - c },
          dailyTokenCounter := none }
        rfl rfl hcost' hwin' hsort'
        (fun b hbeq => by
          simp only [Option.some.injEq] at hbeq
          subst hbeq
          refine ⟨?_, hb1lrT, hb1lr_rest⟩
          simp only
          linarith [not_lt.mp hdeny])
      simp only [bucketPotential] at ih
      simp only [if_neg hdeny]
      try simp
      linarith


theorem checkRpm_effect (s : RLState) (now : ℚ) (r : Nat) :
    (checkRpm s now r).1.tokenBucket = s.tokenBucket ∧
    (checkRpm s now r).1.dailyTokenCounter = s.dailyTokenCounter ∧
    (rpmCountOf (checkRpm s now r).1 = rpmCountOf s ∨
      rpmCountOf (checkRpm s now r).1 = 0) := by
  unfold checkRpm rpmCountOf
  rcases s.requestCounter with _ | c <;> dsimp only <;> split_ifs <;> simp

theorem checkTpm_effect (s : RLState) (now cost L : ℚ) :
    (checkTpm s now cost L).1.requestCounter = s.requestCounter ∧
    (checkTpm s now cost L).1.dailyTokenCounter = s.dailyTokenCounter ∧
    (checkTpm s now cost L).1.tokenBucket =
      some (refillBucket (s.tokenBucket.getD { tokens := L, lastRefill := now }) now L) := by
  unfold checkTpm
  dsimp only
  split_ifs <;> simp

theorem checkTpd_effect (s : RLState) (today : Int) (cost L : ℚ) :
    (checkTpd s today cost L).1.requestCounter = s.requestCounter ∧
    (checkTpd s today cost L).1.tokenBucket = s.tokenBucket ∧
    (dailyTokensOf (checkTpd s today cost L).1 = dailyTokensOf s ∨
      dailyTokensOf (checkTpd s today cost L).1 = 0) := by
  unfold checkTpd dailyTokensOf
  rcases s.dailyTokenCounter with _ | c <;> dsimp only <;> split_ifs <;> simp

theorem checkRpm_tb (s : RLState) (now : ℚ) (r : Nat) :
    (checkRpm s now r).1.tokenBucket = s.tokenBucket := by
  unfold checkRpm; dsimp only; split_ifs <;> rfl

theorem checkRpm_dc (s : RLState) (now : ℚ) (r : Nat) :
    (checkRpm s now r).1.dailyTokenCounter = s.dailyTokenCounter := by
  unfold checkRpm; dsimp only; split_ifs <;> rfl

theorem checkRpm_count (s : RLState) (now : ℚ) (r : Nat) :
    rpmCountOf (checkRpm s now r).1 = rpmCountOf s ∨
      rpmCountOf (checkRpm s now r).1 = 0 := by
  unfold checkRpm rpmCountOf
  rcases s.requestCounter with _ | c <;> dsimp only <;> split_ifs <;> simp

theorem checkTpm_rc (s : RLState) (now cost L : ℚ) :
    (checkTpm s now cost L).1.requestCounter = s.requestCounter := by
  unfold checkTpm; dsimp only; split_ifs <;> rfl

theorem checkTpm_dc (s : RLState) (now cost L : ℚ) :
    (checkTpm s now cost L).1.dailyTokenCounter = s.dailyTokenCounter := by
  unfold checkTpm; dsimp only; split_ifs <;> rfl

theorem checkTpm_tb (s : RLState) (now cost L : ℚ) :
    (checkTpm s now cost L).1.tokenBucket =
      some (refillBucket (s.tokenBucket.getD { tokens := L, lastRefill := now }) now L) := by
  unfold checkTpm; dsimp only; split_ifs <;> rfl

theorem checkTpd_rc (s : RLState) (today : Int) (cost L : ℚ) :
    (checkTpd s today cost L).1.requestCounter = s.requestCounter := by
  unfold checkTpd; dsimp only; split_ifs <;> rfl

theorem checkTpd_tb (s : RLState) (today : Int) (cost L : ℚ) :
    (checkTpd s today cost L).1.tokenBucket = s.tokenBucket := by
  unfold checkTpd; dsimp only; split_ifs <;> rfl

theorem checkTpd_daily (s : RLState) (today : Int) (cost L : ℚ) :
    dailyTokensOf (checkTpd s today cost L).1 = dailyTokensOf s ∨
      dailyTokensOf (checkTpd s today cost L).1 = 0 := by
  unfold checkTpd dailyTokensOf
  rcases s.dailyTokenCounter with _ | c <;> dsimp only <;> split_ifs <;> simp

theorem rpmCountOf_congr {a b : RLState} (h : a.requestCounter = b.requestCounter) :
    rpmCountOf a = rpmCountOf b := by
  unfold rpmCountOf; rw [h]

theorem dailyTokensOf_congr {a b : RLState} (h : a.dailyTokenCounter = b.dailyTokenCounter) :
    dailyTokensOf a = dailyTokensOf b := by
  unfold dailyTokensOf; rw [h]

theorem rpmCountOf_checkTpm (s : RLState) (now cost L : ℚ) :
    rpmCountOf (checkTpm s now cost L).1 = rpmCountOf s :=
  rpmCountOf_congr (checkTpm_rc s now cost L)

theorem rpmCountOf_checkTpd (s : RLState) (today : Int) (cost L : ℚ) :
    rpmCountOf (checkTpd s today cost L).1 = rpmCountOf s :=
  rpmCountOf_congr (checkTpd_rc s today cost L)

theorem dailyTokensOf_checkRpm (s : RLState) (now : ℚ) (r : Nat) :
    dailyTokensOf (checkRpm s now r).1 = dailyTokensOf s :=
  dailyTokensOf_congr (checkRpm_dc s now r)

theorem dailyTokensOf_checkTpm (s : RLState) (now cost L : ℚ) :
    dailyTokensOf (checkTpm s now cost L).1 = dailyTokensOf s :=
  dailyTokensOf_congr (checkTpm_dc s now cost L)

/-- C1 (amended): a denied `can_request` call never records the request
against the counters: the RPM count is left unchanged or reset to zero
(never incremented), the TPD daily token total is left unchanged or
reset to zero (never increased by the cost), and the TPM bucket is
either untouched or exactly its lazily-refilled value (never charged
the cost).  The original claim that the denied call leaves all state
identical is refuted by `C1_counterexample`: the lazy refill, window
and day resets, and first-touch initialization do mutate state. -/
theorem C1_denied_call_records_nothing (s : RLState) (now : ℚ) (today : Int)
    (cost tpmLimit : ℚ) (rpmLimit : Nat) (tpdLimit : ℚ)
    (hdeny : (canRequest s now today cost tpmLimit rpmLimit tpdLimit).2 = false) :
    (rpmCountOf (canRequest s now today cost tpmLimit rpmLimit tpdLimit).1 = rpmCountOf s ∨
      rpmCountOf (canRequest s now today cost tpmLimit rpmLimit tpdLimit).1 = 0) ∧
    (dailyTokensOf (canRequest s now today cost tpmLimit rpmLimit tpdLimit).1 = dailyTokensOf s ∨
      dailyTokensOf (canRequest s now today cost tpmLimit rpmLimit tpdLimit).1 = 0) ∧
    ((canRequest s now today cost tpmLimit rpmLimit tpdLimit).1.tokenBucket = s.tokenBucket ∨
      (canRequest s now today cost tpmLimit rpmLimit tpdLimit).1.tokenBucket =
        some (refillBucket (s.tokenBucket.getD { tokens := tpmLimit, lastRefill := now })
          now tpmLimit)) := by
  simp only [canRequest] at hdeny ⊢
  split_ifs at hdeny ⊢
  all_goals try contradiction
  all_goals try (simp at hdeny)
  all_goals dsimp only
  all_goals refine ⟨?_, ?_, ?_⟩
  all_goals try (first
    | exact checkRpm_count s now rpmLimit
    | (simpa only [rpmCountOf_checkTpm, rpmCountOf_checkTpd] using
        checkRpm_count s now rpmLimit)
    | (refine Or.inl ?_; simp only [rpmCountOf_checkTpm, rpmCountOf_checkTpd]; done)
    | (refine Or.inl ?_; simp only [dailyTokensOf_checkRpm, dailyTokensOf_checkTpm]; done)
    | (simpa only [dailyTokensOf_checkRpm, dailyTokensOf_checkTpm] using
        checkTpd_daily (checkTpm (checkRpm s now rpmLimit).1 now cost tpmLimit).1
          today cost tpdLimit)
    | (simpa only [dailyTokensOf_checkRpm, dailyTokensOf_checkTpm] using
        checkTpd_daily (checkRpm s now rpmLimit).1 today cost tpdLimit)
    | (simpa only [dailyTokensOf_checkRpm, dailyTokensOf_checkTpm] using
        checkTpd_daily (checkTpm s now cost tpmLimit).1 today cost tpdLimit)
    | (simpa only [dailyTokensOf_checkRpm, dailyTokensOf_checkTpm] using
        checkTpd_daily s today cost tpdLimit)
    | (refine Or.inl ?_; first
        | rfl
        | (simp only [checkRpm_tb, checkTpd_tb]; done))
    | (refine Or.inr ?_; simp only [checkTpd_tb, checkTpm_tb, checkRpm_tb]; done))


/-- C1 counterexample: a concrete denied call that mutates rate-limiter
state.  From a fresh limiter, admitting 60 tokens at t = 0 with
`tpm_limit = 60` leaves the bucket at `{tokens := 0, last_refill := 0}`;
a second request for 60 tokens at t = 30 is denied, yet the denial
rewrites the bucket to `{tokens := 30, last_refill := 30}` (the lazy
refill), contradicting the claim that the denied call leaves the TPM
bucket level and last-refill time identical. -/
theorem C1_counterexample :
    (canRequest (canRequest RLState.init 0 0 60 60 0 0).1 30 0 60 60 0 0).2 = false ∧
    (canRequest RLState.init 0 0 60 60 0 0).1.tokenBucket
      = some { tokens := 0, lastRefill := 0 } ∧
    (canRequest (canRequest RLState.init 0 0 60 60 0 0).1 30 0 60 60 0 0).1.tokenBucket
      = some { tokens := 30, lastRefill := 30 } := by
  simp [canRequest, checkRpm, checkTpm, checkTpd, recordRequest, refillBucket, RLState.init]
  norm_num

/-- C1 witness: the amended theorem applied to the concrete denied call
of the counterexample. -/
theorem C1_denied_call_records_nothing_witness :
    (canRequest (canRequest RLState.init 0 0 60 60 0 0).1 30 0 60 60 0 0).2 = false ∧
    ((rpmCountOf (canRequest (canRequest RLState.init 0 0 60 60 0 0).1 30 0 60 60 0 0).1 =
        rpmCountOf (canRequest RLState.init 0 0 60 60 0 0).1 ∨
      rpmCountOf (canRequest (canRequest RLState.init 0 0 60 60 0 0).1 30 0 60 60 0 0).1 = 0) ∧
    (dailyTokensOf (canRequest (canRequest RLState.init 0 0 60 60 0 0).1 30 0 60 60 0 0).1 =
        dailyTokensOf (canRequest RLState.init 0 0 60 60 0 0).1 ∨
      dailyTokensOf (canRequest (canRequest RLState.init 0 0 60 60 0 0).1 30 0 60 60 0 0).1 = 0) ∧
    ((canRequest (canRequest RLState.init 0 0 60 60 0 0).1 30 0 60 60 0 0).1.tokenBucket =
        (canRequest RLState.init 0 0 60 60 0 0).1.tokenBucket ∨
      (canRequest (canRequest RLState.init 0 0 60 60 0 0).1 30 0 60 60 0 0).1.tokenBucket =
        some (refillBucket (((canRequest RLState.init 0 0 60 60 0 0).1.tokenBucket).getD
          { tokens := 60, lastRefill := 30 }) 30 60))) := by
  have hdeny : (canRequest (canRequest RLState.init 0 0 60 60 0 0).1 30 0 60 60 0 0).2 = false := by
    simp [canRequest, checkRpm, checkTpm, checkTpd, recordRequest, refillBucket, RLState.init]
    norm_num
  exact ⟨hdeny, C1_denied_call_records_nothing (canRequest RLState.init 0 0 60 60 0 0).1 30 0 60 60 0 0 hdeny⟩

/-- C5 (amended): for any sequence of requests against one model key
with a fixed `tpm_limit` L > 0, all falling inside one 60-second window
`[t1, t1 + 60]`, with nonnegative costs and nondecreasing times, the
total cost admitted by the token bucket is at most `2 * tpm_limit`
(full initial capacity plus one minute of refill).  The original
claim's bound of `tpm_limit` per minute is refuted by
`C5_counterexample`. -/
theorem C5_admitted_cost_per_minute_le_twice_limit (L t1 : ℚ) (reqs : List (ℚ × ℚ))
    (hL : 0 < L)
    (hcost : ∀ p ∈ reqs, 0 ≤ p.2)
    (hwin : ∀ p ∈ reqs, t1 ≤ p.1 ∧ p.1 ≤ t1 + 60)
    (hsort : List.Pairwise (fun p q => p.1 ≤ q.1) reqs) :
    (runTpmTrace RLState.init L reqs).2 ≤ 2 * L := by
  have h := tpm_trace_bound L hL t1 (t1 + 60) (by linarith) reqs RLState.init rfl rfl
    hcost hwin hsort (by intro b hb; simp [RLState.init] at hb)
  have heq : bucketPotential RLState.init.tokenBucket L t1 + L / 60 * (t1 + 60) = 2 * L := by
    show L - L / 60 * t1 + L / 60 * (t1 + 60) = 2 * L
    ring
  linarith

/-- C5 counterexample: with `tpm_limit = 60`, a request for 60 tokens at
t = 0 and a request for 59 tokens at t = 59 are both admitted, so 119
tokens are recorded inside a single minute — exceeding `tpm_limit = 60`
and refuting the claim that the per-minute running sum of recorded
tokens never exceeds `tpm_limit`. -/
theorem C5_counterexample :
    (canRequest RLState.init 0 0 60 60 0 0).2 = true ∧
    (canRequest (canRequest RLState.init 0 0 60 60 0 0).1 59 0 59 60 0 0).2 = true ∧
    (runTpmTrace RLState.init 60 [(0, 60), (59, 59)]).2 = 119 ∧ (60 : ℚ) < 119 := by
  refine ⟨?_, ?_, ?_, by norm_num⟩ <;>
    (simp [runTpmTrace, canRequest, checkRpm, checkTpm, checkTpd, recordRequest,
      refillBucket, RLState.init]; try norm_num)

/-- C5 witness: the amended bound applied to the counterexample trace,
which reaches 119 of the permitted 120 tokens in one minute. -/
theorem C5_admitted_cost_per_minute_le_twice_limit_witness :
    (0 : ℚ) < 60 ∧ (runTpmTrace RLState.init 60 [(0, 60), (59, 59)]).2 ≤ 2 * 60 := by
  refine ⟨by norm_num, C5_admitted_cost_per_minute_le_twice_limit 60 0 [(0, 60), (59, 59)] (by norm_num) ?_ ?_ ?_⟩
  · intro p hp
    simp only [List.mem_cons, List.not_mem_nil, or_false] at hp
    rcases hp with rfl | rfl <;> norm_num
  · intro p hp
    simp only [List.mem_cons, List.not_mem_nil, or_false] at hp
    rcases hp with rfl | rfl <;> norm_num
  · simp [List.pairwise_cons]
    try norm_num

end RateLimiter


namespace RuleCache

/-- C7: the TTL cache contract of `_get_entity_rules`.
(1) While a live entry exists (age strictly below the 30 s TTL), a
lookup returns the stored payload, leaves the cache slot unchanged and
does not invoke the fetch function.
(2) When no live entry exists (no entry, or TTL elapsed), the lookup
invokes the fetch function, stores its (activity-filtered,
priority-sorted) result with a fresh timestamp and returns it.
(3) Hence two consecutive lookups whose times differ by less than the
TTL return the identical payload and the second lookup performs no
fetch, regardless of what a second fetch would return. -/
theorem C7_ttl_cache_contract :
    (∀ (e : CacheEntry) (now : ℚ) (taskId : Int) (fetch : Int → List Rule),
      now - e.timestamp < CACHE_TTL →
      getEntityRules (some e) now taskId fetch = (some e, e.data, false)) ∧
    (∀ (c : Option CacheEntry) (now : ℚ) (taskId : Int) (fetch : Int → List Rule),
      getCachedData c now = none →
      getEntityRules c now taskId fetch =
        (some { data := processFetched (fetch taskId), timestamp := now },
         processFetched (fetch taskId), true)) ∧
    (∀ (t1 t2 : ℚ) (taskId : Int) (fetch fetch2 : Int → List Rule),
      t2 - t1 < CACHE_TTL →
      (getEntityRules (getEntityRules none t1 taskId fetch).1 t2 taskId fetch2).2.1 =
          (getEntityRules none t1 taskId fetch).2.1 ∧
      (getEntityRules (getEntityRules none t1 taskId fetch).1 t2 taskId fetch2).2.2 =
          false) := by
  refine ⟨?_, ?_, ?_⟩
  · intro e now taskId fetch hlive
    simp [getEntityRules, getCachedData, isCacheValid, hlive]
  · intro c now taskId fetch hmiss
    simp [getEntityRules, hmiss, setCache]
  · intro t1 t2 taskId fetch fetch2 hlt
    have h1 : getEntityRules none t1 taskId fetch =
        (some { data := processFetched (fetch taskId), timestamp := t1 },
         processFetched (fetch taskId), true) := by
      simp [getEntityRules, getCachedData, isCacheValid, setCache]
    rw [h1]
    simp [getEntityRules, getCachedData, isCacheValid, hlt]

/-- C7 witness: the contract applied at concrete inputs: a hit at age
10 < 30 on an entry stored at time 5; a miss on an empty cache; and a
refetch-free second lookup 10 seconds after a first one. -/
theorem C7_ttl_cache_contract_witness :
    (getEntityRules (some { data := [{ body := 7 }], timestamp := 5 }) 15 1
        (fun _ => [{ body := 9 }]) =
      (some { data := [{ body := 7 }], timestamp := 5 }, [{ body := 7 }], false)) ∧
    (getEntityRules none 100 1 (fun _ => [{ body := 9 }]) =
      (some { data := [{ body := 9 }], timestamp := 100 }, [{ body := 9 }], true)) ∧
    ((getEntityRules (getEntityRules none 0 1 (fun _ => [{ body := 9 }])).1 10 1
        (fun _ => [{ body := 3 }])).2.1 =
          (getEntityRules none 0 1 (fun _ => [{ body := 9 }])).2.1 ∧
     (getEntityRules (getEntityRules none 0 1 (fun _ => [{ body := 9 }])).1 10 1
        (fun _ => [{ body := 3 }])).2.2 = false) := by
  refine ⟨?_, ?_, ?_⟩
  · exact C7_ttl_cache_contract.1 { data := [{ body := 7 }], timestamp := 5 } 15 1
      (fun _ => [{ body := 9 }]) (by norm_num [CACHE_TTL])
  · have h := C7_ttl_cache_contract.2.1 none 100 1 (fun _ => [{ body := 9 }])
      (by simp [getCachedData, isCacheValid])
    simpa [processFetched, setCache] using h
  · exact C7_ttl_cache_contract.2.2 0 10 1 (fun _ => [{ body := 9 }])
      (fun _ => [{ body := 3 }]) (by norm_num [CACHE_TTL])

end RuleCache

namespace Postprocess

theorem errorFailed_validateOutput (o g : String) :
    errorFailed (validateOutput o g) =
      decide (o = "" ∨ (pyStrip o).length < 10) := by
  unfold validateOutput
  dsimp only
  by_cases hc : (o = "" ∨ (pyStrip o).length < 10)
  · rw [if_pos hc]
    simp [errorFailed, hc]
  · rw [if_neg hc]
    simp only [errorFailed, List.any_cons, List.any_append]
    split_ifs <;> simp [hc]

/-- The score fold of `_calculate_quality_score` evaluates to the
closed formula: initial value minus 0.3 per failed error and 0.1 per
failed warning. -/
theorem foldl_score_eq (l : List ValidationResult) (init : ℚ) :
    l.foldl (fun score v =>
      if v.passed = false then
        if v.severity = "error" then score - 3 / 10
        else if v.severity = "warning" then score - 1 / 10
        else score
      else score) init =
    init - 3 / 10 * countFailed "error" l - 1 / 10 * countFailed "warning" l := by
  induction l generalizing init with
  | nil => simp [countFailed]
  | cons v t ih =>
    simp only [List.foldl_cons, ih, countFailed, List.filter_cons]
    split_ifs <;> simp_all [countFailed] <;> push_cast <;> ring

/-- C8: the quality score equals the claimed formula — start at 1.0,
subtract 0.3 per failed error-severity check and 0.1 per failed
warning-severity check, blend 70/30 with the verified-rule fraction
when any rules were checked, clamp to [0,1] — and always lies in
[0,1]. -/
theorem C8_quality_score_formula (validations : List ValidationResult)
    (rulesVerified : List (String × Bool)) :
    calculateQualityScore validations rulesVerified =
      max 0 (min 1
        (if rulesVerified ≠ [] then
          (1 - 3 / 10 * countFailed "error" validations
             - 1 / 10 * countFailed "warning" validations) * (7 / 10) +
            ((rulesVerified.filter (fun rv => rv.2)).length : ℚ) /
              (rulesVerified.length : ℚ) * (3 / 10)
         else
          1 - 3 / 10 * countFailed "error" validations
            - 1 / 10 * countFailed "warning" validations)) ∧
    0 ≤ calculateQualityScore validations rulesVerified ∧
    calculateQualityScore validations rulesVerified ≤ 1 := by
  refine ⟨?_, ?_, ?_⟩
  · unfold calculateQualityScore
    rw [foldl_score_eq]
    rcases rulesVerified with _ | ⟨rv, rvs⟩ <;> simp
  · unfold calculateQualityScore
    exact le_max_left 0 _
  · unfold calculateQualityScore
    exact max_le (by norm_num) (min_le_left 1 _)

/-- The postprocess success flag is exactly the absence of a failed
error-severity validation (also on the blank-output path, whose single
recorded validation is a warning). -/
theorem postprocess_success_eq (aiOutput original : String)
    (rr : Option RuleEngineSummary) (config : PPConfig) :
    (postprocess aiOutput original rr config).success =
      !errorFailed (postprocess aiOutput original rr config).validations := by
  unfold postprocess
  split_ifs <;> simp [errorFailed]

end Postprocess

namespace Pipeline

open Postprocess

/-- A validation report has no failed error-severity entry iff every
failed entry has a different severity. -/
theorem not_errorFailed_iff (l : List Postprocess.ValidationResult) :
    (!Postprocess.errorFailed l) = true ↔
      ∀ v ∈ l, v.passed = false → v.severity ≠ "error" := by
  simp only [Postprocess.errorFailed, Bool.not_eq_true', List.any_eq_false]
  constructor
  · intro hh v hv hfail
    have := hh v hv
    simp_all
  · intro hh v hv
    have := hh v hv
    by_cases hp : v.passed <;> by_cases hs : v.severity = "error" <;> simp_all

/-- C3 (amended): for non-blank input the overall pipeline success flag
is the conjunction of the rule stage's success, the generate stage
producing non-blank output, and the postprocess stage's success; the
postprocess stage succeeds exactly when no error-severity validation
check failed (warning-severity failures never matter); and when the
generate stage returns blank (all fallbacks exhausted), the final text
still falls back to the postprocessed rule-applied text.  The original
claim — that overall success reflects the error-severity validations
only — is refuted by `C3_counterexample`: a blank generate output
forces `success = false` by itself. -/
theorem C3_success_composition (text : String) (ruleResult : RuleStageResult)
    (aiOutput : String) (config : PPConfig)
    (h : ¬(text = "" ∨ pyStrip text = "")) :
    ((pipelineProcess text ruleResult aiOutput config).success =
      (ruleResult.success &&
        !(aiOutput = "" ∨ pyStrip aiOutput = "" : Bool) &&
        !errorFailed (postValidations (pipelineProcess text ruleResult aiOutput config)))) ∧
    ((!errorFailed (postValidations (pipelineProcess text ruleResult aiOutput config))) = true ↔
      ∀ v ∈ postValidations (pipelineProcess text ruleResult aiOutput config),
        v.passed = false → v.severity ≠ "error") ∧
    ((aiOutput = "" ∨ pyStrip aiOutput = "") →
      (pipelineProcess text ruleResult aiOutput config).finalText =
        (postprocess ruleResult.processedText text
          (some { entitiesReplaced := ruleResult.entitiesReplaced,
                  contextModifications := ruleResult.contextModifications }) config).finalOutput) := by
  refine ⟨?_, ?_, ?_⟩
  · simp only [pipelineProcess, if_neg h, postValidations]
    rw [postprocess_success_eq]
    simp [List.all_cons, Bool.and_assoc]
  · exact not_errorFailed_iff _
  · intro hblank
    have haiOk : (!(aiOutput = "" ∨ pyStrip aiOutput = "" : Bool)) = false := by
      simp [hblank]
    simp only [pipelineProcess, if_neg h]
    rw [haiOk]
    simp

/-- C3 counterexample: a pipeline run on non-blank input whose rule
stage succeeds, whose generate stage returns empty (all fallbacks
exhausted), and whose postprocess validations contain no failed
error-severity check — yet the overall success flag is false (the
failed generate stage alone falsifies it), refuting "success is false
exactly when some error-severity postprocess check failed".  The final
text still falls back to the rule-applied text. -/
theorem C3_counterexample :
    ((pipelineProcess "Committee report - the session ended without agreement"
        { processedText := "Committee report - the session ended without agreement",
          success := true } "" {}).success = false) ∧
    (errorFailed (postValidations
      (pipelineProcess "Committee report - the session ended without agreement"
        { processedText := "Committee report - the session ended without agreement",
          success := true } "" {})) = false) ∧
    ((pipelineProcess "Committee report - the session ended without agreement"
        { processedText := "Committee report - the session ended without agreement",
          success := true } "" {}).finalText =
      "Committee report - the session ended without agreement") := by
  refine ⟨by decide, ?_, by decide⟩
  have hval : postValidations
      (pipelineProcess "Committee report - the session ended without agreement"
        { processedText := "Committee report - the session ended without agreement",
          success := true } "" {}) =
      validateOutput (pyStrip "Committee report - the session ended without agreement")
        "Committee report - the session ended without agreement" := rfl
  rw [hval, errorFailed_validateOutput]
  decide

/-- C3 witness: the amended composition theorem applied to the
counterexample's concrete run (non-blank input, successful rule stage,
empty generate output). -/
theorem C3_success_composition_witness :
    (¬(("Committee report - the session ended without agreement" : String) = "" ∨
        pyStrip "Committee report - the session ended without agreement" = "")) ∧
    (((pipelineProcess "Committee report - the session ended without agreement"
        { processedText := "Committee report - the session ended without agreement",
          success := true } "" {}).success =
      (({ processedText := "Committee report - the session ended without agreement",
          success := true } : RuleStageResult).success &&
        !(("" : String) = "" ∨ pyStrip "" = "" : Bool) &&
        !errorFailed (postValidations
          (pipelineProcess "Committee report - the session ended without agreement"
            { processedText := "Committee report - the session ended without agreement",
              success := true } "" {})))) ∧
    ((!errorFailed (postValidations
        (pipelineProcess "Committee report - the session ended without agreement"
          { processedText := "Committee report - the session ended without agreement",
            success := true } "" {}))) = true ↔
      ∀ v ∈ postValidations
          (pipelineProcess "Committee report - the session ended without agreement"
            { processedText := "Committee report - the session ended without agreement",
              success := true } "" {}),
        v.passed = false → v.severity ≠ "error") ∧
    ((("" : String) = "" ∨ pyStrip "" = "") →
      (pipelineProcess "Committee report - the session ended without agreement"
        { processedText := "Committee report - the session ended without agreement",
          success := true } "" {}).finalText =
        (postprocess "Committee report - the session ended without agreement"
          "Committee report - the session ended without agreement"
          (some { entitiesReplaced := [], contextModifications := [] }) {}).finalOutput)) :=
  ⟨by decide,
   C3_success_composition "Committee report - the session ended without agreement"
     { processedText := "Committee report - the session ended without agreement",
       success := true } "" {} (by decide)⟩

end Pipeline

namespace MediaGroup

/-- Buffered arrivals for an already-created group key append in order
and never reschedule or touch the config. -/
theorem arrivals_accumulate (key : String) (taskId : Int) (cfg : TaskConfig)
    (gc : GroupConfig) :
    ∀ (rest : List (ℚ × Nat)) (tail : List MGEvent) (acc : List Nat),
      runEvents ⟨[(key, acc)], [(key, gc)]⟩
        ((rest.map (fun p => MGEvent.arrive p.1 key p.2 taskId cfg)) ++ tail) =
      runEvents ⟨[(key, acc ++ rest.map (fun p => p.2))], [(key, gc)]⟩ tail
  | [], tail, acc => by simp only [List.map_nil, List.append_nil, List.nil_append]
  | (t, m) :: rest, tail, acc => by
    have ih := arrivals_accumulate key taskId cfg gc rest tail (acc ++ [m])
    have hstep : handleMediaGroup ⟨[(key, acc)], [(key, gc)]⟩ t key m taskId cfg =
        (⟨[(key, acc ++ [m])], [(key, gc)]⟩, none) := by
      simp [handleMediaGroup, lookupKey, setKey]
    have happ : (acc ++ [m]) ++ rest.map (fun p => p.2) =
        acc ++ (t, m).2 :: rest.map (fun p => p.2) := by simp
    simp only [List.map_cons, List.cons_append, runEvents, hstep]
    rw [happ] at ih
    exact ih

/-- Late or duplicate flush timers on an empty aggregator are no-ops. -/
theorem fires_noop (key : String) :
    ∀ (extra : List ℚ),
      runEvents MGState.init (extra.map (fun t => MGEvent.fire t key)) =
        (MGState.init, [])
  | [] => by simp [runEvents]
  | t :: rest => by
    have ih := fires_noop key rest
    simp only [List.map_cons, runEvents, processAfterDelay, lookupKey, MGState.init,
      List.find?, Option.map]
    simpa using ih

end MediaGroup

namespace MediaGroup

/-- C2: for a group of `1 + rest.length` items sharing one group key,
arriving (first item at `t1`, the others in `[t1, t1 + 2.5)`) before
the single flush timer that the first arrival scheduled for
`t1 + 2.5` fires, exactly one flush occurs: it fires at `t1 + 2.5`,
processes all items as one unit in arrival order (with the
captured config), the group key is gone from the buffer afterwards,
and any number of duplicate or late flush timers for the same key are
safe no-ops (they add no flush and do not change state); later
arrivals never reschedule the timer. -/
theorem C2_single_flush_all_items (key : String) (taskId : Int) (cfg : TaskConfig)
    (t1 : ℚ) (m1 : Nat) (rest : List (ℚ × Nat)) (extra : List ℚ)
    (hwin : ∀ p ∈ rest, t1 ≤ p.1 ∧ p.1 < t1 + 5 / 2) :
    (runEvents MGState.init
        (MGEvent.arrive t1 key m1 taskId cfg ::
          (rest.map (fun p => MGEvent.arrive p.1 key p.2 taskId cfg)) ++
          MGEvent.fire (t1 + 5 / 2) key ::
          (extra.map (fun t => MGEvent.fire t key)))).2 =
      [(t1 + 5 / 2, key, m1 :: rest.map (fun p => p.2),
        { taskId := taskId, taskConfig := cfg })] ∧
    lookupKey (runEvents MGState.init
        (MGEvent.arrive t1 key m1 taskId cfg ::
          (rest.map (fun p => MGEvent.arrive p.1 key p.2 taskId cfg)) ++
          MGEvent.fire (t1 + 5 / 2) key ::
          (extra.map (fun t => MGEvent.fire t key)))).1.cache key = none ∧
    (handleMediaGroup MGState.init t1 key m1 taskId cfg).2 = some (t1 + 5 / 2) ∧
    (∀ p ∈ rest,
      (handleMediaGroup ⟨[(key, [m1])], [(key, { taskId := taskId, taskConfig := cfg })]⟩
        p.1 key p.2 taskId cfg).2 = none) := by
  have hstep1 : handleMediaGroup MGState.init t1 key m1 taskId cfg =
      (⟨[(key, [m1])], [(key, { taskId := taskId, taskConfig := cfg })]⟩,
        some (t1 + 5 / 2)) := by
    simp [handleMediaGroup, MGState.init, lookupKey, setKey]
  have hacc := arrivals_accumulate key taskId cfg
    { taskId := taskId, taskConfig := cfg } rest
    (MGEvent.fire (t1 + 5 / 2) key :: (extra.map (fun t => MGEvent.fire t key))) [m1]
  have hfirepop : processAfterDelay
      ⟨[(key, [m1] ++ rest.map (fun p => p.2))],
        [(key, { taskId := taskId, taskConfig := cfg })]⟩ key =
      (MGState.init,
        some ([m1] ++ rest.map (fun p => p.2),
          { taskId := taskId, taskConfig := cfg })) := by
    simp [processAfterDelay, lookupKey, removeKey, MGState.init]
  have hnoop := fires_noop key extra
  refine ⟨?_, ?_, by rw [hstep1], ?_⟩
  · simp only [List.cons_append, runEvents, hstep1, List.append_eq]
    rw [hacc]
    simp only [runEvents, hfirepop, hnoop]
    simp
  · simp only [List.cons_append, runEvents, hstep1, List.append_eq]
    rw [hacc]
    simp only [runEvents, hfirepop, hnoop]
    simp [MGState.init, lookupKey]
  · intro p hp
    simp [handleMediaGroup, lookupKey]

/-- C2 witness: three items arriving at t = 0, 0.5 and 2.0 with the
2.5-second flush delay, plus two late duplicate timers: one flush at
t = 2.5 carrying all three items in arrival order. -/
theorem C2_single_flush_all_items_witness :
    (∀ p ∈ [((1 : ℚ) / 2, 2), (2, 3)], (0 : ℚ) ≤ p.1 ∧ p.1 < 0 + 5 / 2) ∧
    (runEvents MGState.init
        (MGEvent.arrive 0 "k" 1 7 { targetChannels := [5] } ::
          ([((1 : ℚ) / 2, 2), (2, 3)].map
            (fun p => MGEvent.arrive p.1 "k" p.2 7 { targetChannels := [5] })) ++
          MGEvent.fire (0 + 5 / 2) "k" ::
          ([(3 : ℚ), 4].map (fun t => MGEvent.fire t "k")))).2 =
      [(0 + 5 / 2, "k", 1 :: [((1 : ℚ) / 2, 2), (2, 3)].map (fun p => p.2),
        { taskId := 7, taskConfig := { targetChannels := [5] } })] := by
  have hwin : ∀ p ∈ [((1 : ℚ) / 2, 2), (2, 3)], (0 : ℚ) ≤ p.1 ∧ p.1 < 0 + 5 / 2 := by
    intro p hp
    simp only [List.mem_cons, List.not_mem_nil, or_false] at hp
    rcases hp with rfl | rfl <;> norm_num
  exact ⟨hwin,
    (C2_single_flush_all_items "k" 7 { targetChannels := [5] } 0 1
      [((1 : ℚ) / 2, 2), (2, 3)] [3, 4] hwin).1⟩

/-- C6: the flush handler's dispatch configuration comes from the
config captured when the group was buffered, not from the owner/task
state at flush time: a group buffered with target channels `[5]` and
AI enabled is still dispatched to `[5]` even if the task's stored
configuration at flush time has been disabled and has no targets —
the popped `task_config` alone determines the targets. -/
theorem C6_flush_uses_captured_config :
    ((processAfterDelay
        (handleMediaGroup MGState.init 0 "k" 1 7
          { targetChannels := [5], aiEnabled := true }).1 "k").2.map
      (fun f => flushDispatchTargets f.2)) = some [5] ∧
    ({ targetChannels := [], aiEnabled := false } : TaskConfig).targetChannels = [] ∧
    ([5] : List Int) ≠ [] := by
  refine ⟨?_, rfl, by decide⟩
  simp [handleMediaGroup, processAfterDelay, MGState.init, lookupKey, setKey,
    removeKey, flushDispatchTargets]

end MediaGroup

namespace SerialNumber

/-- Sequential allocations from an existing counter value count up from
it, one by one, gap-free. -/
theorem seqAllocs_some (n k : Nat) :
    seqAllocs (some k) n = (some (k + n), List.range' (k + 1) n) := by
  induction n generalizing k with
  | zero => simp [seqAllocs]
  | succ m ih =>
    simp only [seqAllocs, getNextSerialSeq, ih (k + 1), List.range'_succ]
    have h1 : k + 1 + m = k + (m + 1) := by omega
    rw [h1]

/-- C4 (amended): executed without interleaving, serial allocation is
correct: starting from no counter row, `n` allocations return exactly
`1, 2, …, n` (first allocation 1, each later one exactly one more,
strictly increasing, gap-free — and never reused, since the counter
row ends at `n` and only ever increments).  The atomicity part of the
claim is refuted by `C4_counterexample`: the SELECT-then-UPDATE pair
is not one atomic increment, and interleaved concurrent calls can
return duplicate serials. -/
theorem C4_sequential_allocations_gap_free (n : Nat) :
    (seqAllocs none n).2 = List.range' 1 n ∧
    (seqAllocs none n).1 = (if n = 0 then none else some n) := by
  cases n with
  | zero => simp [seqAllocs]
  | succ m =>
    simp only [seqAllocs, getNextSerialSeq, seqAllocs_some]
    refine ⟨?_, by simp; omega⟩
    simp [List.range']

/-- C4 counterexample: `get_next_serial_number` is two separate awaited
statements (SELECT, then UPDATE), not a single atomic
increment-and-return; with the owner's counter at 5, the interleaving
read-A, read-B, write-A, write-B makes both concurrent calls return
serial 6 — a duplicate — whereas the serial schedule read-A, write-A,
read-B, write-B returns 6 then 7. -/
theorem C4_counterexample :
    (runSchedule { db := some 5, a := {}, b := {} }
        [Agent.A, Agent.B, Agent.A, Agent.B]).a.result = some 6 ∧
    (runSchedule { db := some 5, a := {}, b := {} }
        [Agent.A, Agent.B, Agent.A, Agent.B]).b.result = some 6 ∧
    (runSchedule { db := some 5, a := {}, b := {} }
        [Agent.A, Agent.A, Agent.B, Agent.B]).a.result = some 6 ∧
    (runSchedule { db := some 5, a := {}, b := {} }
        [Agent.A, Agent.A, Agent.B, Agent.B]).b.result = some 7 := by
  decide

end SerialNumber

namespace Queue

/-- C9: per-job worker execution.  The job is first marked
`processing`; on handler success it is marked `completed` carrying the
handler's result (worker returns True); on a handler exception it is
marked `failed` exactly when the fetched `attempts` has reached
`max_attempts`, and otherwise set back to `pending` (worker returns
False) — and a `pending` row is picked up again by a later poll
cycle's status-based selection (`get_pending_jobs`), with no delay or
backoff timer involved. -/
theorem C9_worker_status_transitions (job : JobRow) (res e : String) (t1 t2 : Int) :
    (updateJobStatus job "processing" none none t1).status = "processing" ∧
    (processJob job (Except.ok res) t1 t2).1.status = "completed" ∧
    (processJob job (Except.ok res) t1 t2).1.result = some res ∧
    (processJob job (Except.ok res) t1 t2).2 = true ∧
    (processJob job (Except.error e) t1 t2).1.status =
      (if job.maxAttempts ≤ job.attempts then "failed" else "pending") ∧
    (processJob job (Except.error e) t1 t2).2 = false ∧
    (job.attempts < job.maxAttempts →
      (processJob job (Except.error e) t1 t2).1 ∈
        getPendingJobs [(processJob job (Except.error e) t1 t2).1]) := by
  refine ⟨rfl, rfl, rfl, rfl, rfl, rfl, ?_⟩
  intro hlt
  simp only [processJob, updateJobStatus, getPendingJobs]
  rw [if_neg (by omega)]
  simp [List.mergeSort]

/-- C9 witness: the transitions at a concrete job (attempts 1 of 3):
success completes it; failure leaves it pending and visible to the
next status-based poll. -/
theorem C9_worker_status_transitions_witness :
    ({ attempts := 1, maxAttempts := 3 } : JobRow).attempts <
      ({ attempts := 1, maxAttempts := 3 } : JobRow).maxAttempts ∧
    (processJob { attempts := 1, maxAttempts := 3 } (Except.ok "r") 10 11).1.status
      = "completed" ∧
    (processJob { attempts := 1, maxAttempts := 3 } (Except.error "boom") 10 11).1.status
      = (if ({ attempts := 1, maxAttempts := 3 } : JobRow).maxAttempts ≤
            ({ attempts := 1, maxAttempts := 3 } : JobRow).attempts
         then "failed" else "pending") ∧
    (processJob { attempts := 1, maxAttempts := 3 } (Except.error "boom") 10 11).1 ∈
      getPendingJobs
        [(processJob { attempts := 1, maxAttempts := 3 } (Except.error "boom") 10 11).1] := by
  have h := C9_worker_status_transitions { attempts := 1, maxAttempts := 3 } "r" "boom" 10 11
  exact ⟨by decide, h.2.1, h.2.2.2.2.1, h.2.2.2.2.2.2 (by decide)⟩

/-- C10: every `update_job_status` call increments the persisted
`attempts` by exactly one — including the `processing` mark — so one
finished run (success or failure) raises `attempts` by two; and the
worker's failed-versus-pending decision is taken on the attempts value
fetched with the job, not the incremented one: a job fetched one
attempt short of its cap is left `pending` even though its persisted
attempts then equal `max_attempts + 1`. -/
theorem C10_attempts_accounting (job : JobRow) (res e status : String)
    (r2 : Option String) (err : Option String) (t1 t2 : Int) :
    (updateJobStatus job status r2 err t1).attempts = job.attempts + 1 ∧
    (processJob job (Except.ok res) t1 t2).1.attempts = job.attempts + 2 ∧
    (processJob job (Except.error e) t1 t2).1.attempts = job.attempts + 2 ∧
    (job.attempts + 1 = job.maxAttempts →
      (processJob job (Except.error e) t1 t2).1.status = "pending" ∧
      job.maxAttempts ≤ (processJob job (Except.error e) t1 t2).1.attempts) := by
  refine ⟨rfl, rfl, rfl, ?_⟩
  intro heq
  constructor
  · simp only [processJob, updateJobStatus]
    rw [if_neg (by omega)]
  · simp only [processJob, updateJobStatus]
    omega

/-- C10 witness: a job fetched at attempts 2 with `max_attempts = 3`:
each update adds one attempt, the failed run ends at 4 ≥ 3, yet the
job is left `pending` because the decision used the fetched value 2. -/
theorem C10_attempts_accounting_witness :
    (updateJobStatus { attempts := 2, maxAttempts := 3 } "processing" none none 10).attempts
      = 3 ∧
    (processJob { attempts := 2, maxAttempts := 3 } (Except.error "boom") 10 11).1.attempts
      = 4 ∧
    ({ attempts := 2, maxAttempts := 3 } : JobRow).attempts + 1 =
      ({ attempts := 2, maxAttempts := 3 } : JobRow).maxAttempts ∧
    (processJob { attempts := 2, maxAttempts := 3 } (Except.error "boom") 10 11).1.status
      = "pending" := by
  have h := C10_attempts_accounting { attempts := 2, maxAttempts := 3 } "r" "boom"
    "processing" none none 10 11
  exact ⟨h.1, h.2.2.1, by decide, (h.2.2.2 (by decide)).1⟩

end Queue
